import Mathlib

/-!
Verification of the surfacing G-code generator (`surfacing_gcodev3.py`).

The program is embedded shallowly: real-valued quantities become exact
rationals (`ℚ`), the Python `ValueError` raises become an explicit error
type threaded through `Except`, and each emitted G-code line becomes a
constructor of the inductive type `GLine` carrying the exact numeric
fields that the source interpolates into the line (position and arc
values are printed at 3 decimals, feeds at 1 decimal, RPM rounded to an
integer; the formatting itself is presentation and is not modelled).
-/

namespace Surfacing

/-- Absolute tolerance `1e-9` used by the source both in the
`math.isclose` test of `_depth_levels` and in the degenerate-interval
guard `dy <= 1e-9` of the emitter. -/
def tol : ℚ := 1 / 1000000000

/-- Millimetres per inch (the literal `25.4` in the source). -/
def mmPerInch : ℚ := 254 / 10

/-- The distinct `raise ValueError(...)` sites of the source, one
constructor per distinct message family.  The two `Unsupported ... unit`
messages are the spec's `UnsupportedUnit`; the positivity failures are
the spec's `InvalidDimension`. -/
inductive GErr where
  | unsupportedGeomUnit (u : String)
  | unsupportedRateUnit (u : String)
  | invalidFinalDepth
  | invalidMaxStepdown
  | invalidWidthLength
  | invalidStepover
  | invalidRetract
  | invalidRates
deriving DecidableEq

/-- One emitted G-code line, one constructor per distinct
`out.append(...)` format string of `generate_surfacing_gcode`.
`g2` is the clockwise arc command of the dialect and `g3` the
counter-clockwise one (RS-274 semantics, G17 plane viewed from +Z). -/
inductive GLine where
  | progComment (name : String)
  | g90
  | g21
  | g17
  | workOffset (s : String)
  | g64
  | blank
  | g0z (z : ℚ)
  | m3 (rpm : ℤ)
  | depthComment (d : ℚ)
  | g0xy (x y : ℚ)
  | g1z (z f : ℚ)
  | g1x (x f : ℚ)
  | g3 (x y i j : ℚ)
  | g2 (x y i j : ℚ)
  | m5
  | m30
deriving DecidableEq

/-- Decidable equality for `Except` results, so that concrete program
evaluations can be settled by `decide`. -/
instance {ε α : Type} [DecidableEq ε] [DecidableEq α] :
    DecidableEq (Except ε α) := fun a b =>
  match a, b with
  | .ok x, .ok y => decidable_of_iff (x = y) (by simp)
  | .ok _, .error _ => isFalse fun hc => Except.noConfusion hc
  | .error _, .ok _ => isFalse fun hc => Except.noConfusion hc
  | .error e, .error f => decidable_of_iff (e = f) (by simp)

/-- `_geom_to_mm` from the source: `mm` is identity, the inch aliases
`inch`/`in` multiply by 25.4, anything else raises. -/
def geom_to_mm (v : ℚ) (unit : String) : Except GErr ℚ :=
  if unit = "mm" then .ok v
  else if unit = "inch" ∨ unit = "in" then .ok (v * mmPerInch)
  else .error (.unsupportedGeomUnit unit)

/-- `_rate_to_mm_min` from the source. -/
def rate_to_mm_min (v : ℚ) (unit : String) : Except GErr ℚ :=
  if unit = "mm/min" then .ok v
  else if unit = "in/min" ∨ unit = "inch/min" then .ok (v * mmPerInch)
  else .error (.unsupportedRateUnit unit)

/-- The two lines `next_z = z - step; if next_z < target: next_z = target`
of the loop body of `_depth_levels`. -/
def clampStep (target z step : ℚ) : ℚ :=
  if z - step < target then target else z - step

/-- The `while z > target` loop of `_depth_levels`: compute
`next_z = z - step`, clamp at `target` (`clampStep`), append, and stop
as soon as the appended level is within `tol` of `target` (the source's
`isclose` with `abs_tol=1e-9`).  The stop test is expressed here on the
unclamped value: when the clamp fires the appended level is exactly
`target` and the `isclose` break always fires, and that is precisely
the case `z - step - target < 0 ≤ tol`; when the clamp does not fire
the appended level is `z - step ≥ target` and `isclose` reads
`z - step - target ≤ tol`.  So the loop continues exactly when
`tol < z - step - target`, in which case `z - step` is the appended
(unclamped) level, equal to `clampStep target z step`. -/
def depthLoop (target step : ℚ) (hstep : 0 < step) (z : ℚ) : List ℚ :=
  if target < z then
    if z - step - target ≤ tol then [clampStep target z step]
    else (z - step) :: depthLoop target step hstep (z - step)
  else []
termination_by (⌈(z - target) / step⌉).toNat
decreasing_by
  have htol : (0:ℚ) < tol := by norm_num [tol]
  rename_i hclose
  push_neg at hclose
  have hx : (1:ℚ) < (z - target) / step := by
    rw [lt_div_iff₀ hstep]
    linarith
  have hceil2 : (2:ℤ) ≤ ⌈(z - target) / step⌉ := by
    have h1 : ((1:ℤ):ℚ) < (z - target) / step := by exact_mod_cast hx
    have h2 := Int.lt_ceil.mpr h1
    omega
  have heq : ⌈(z - step - target) / step⌉ = ⌈(z - target) / step⌉ - 1 := by
    have hdiv : (z - step - target) / step = (z - target) / step - 1 := by
      field_simp
      ring
    rw [hdiv, Int.ceil_sub_one]
  rw [heq]
  exact (Int.toNat_lt_toNat (by omega)).mpr (by omega)

/-- `_depth_levels` from the source: validate positivity, then run the
loop starting at `z = 0` toward `target = -final_depth_mm`. -/
def depth_levels (final_depth_mm max_stepdown_mm : ℚ) : Except GErr (List ℚ) :=
  if final_depth_mm ≤ 0 then .error .invalidFinalDepth
  else if h : max_stepdown_mm ≤ 0 then .error .invalidMaxStepdown
  else .ok (depthLoop (-final_depth_mm) max_stepdown_mm (not_le.mp h) 0)

/-- The pass planning of lines 142–143 of the source:
`n_passes = ceil(width_mm / stepover_mm) + 1` and
`ys = [min(i * stepover_mm, width_mm) for i in range(n_passes)]`. -/
def passYs (width_mm stepover_mm : ℚ) : List ℚ :=
  let n_passes := (⌈width_mm / stepover_mm⌉).toNat + 1
  (List.range n_passes).map fun i : ℕ => min ((i : ℚ) * stepover_mm) width_mm

/-- The inner `for i, y in enumerate(ys)` loop of the emitter (source
lines 170–192).  Each pass first emits its sweep (`G1 X{length}` when
`direction = +1`, `G1 X0` otherwise).  If the pass is not the last one,
`dy = ys[i+1] - y` is inspected: when `dy ≤ tol` the `break` fires and
nothing further is emitted for this level; otherwise a semicircular arc
of radius `dy / 2` is emitted (`G3` at `X = length` after a `+X` sweep,
`G2` at `X = 0` after a `−X` sweep) and the direction flips. -/
def passLines (length_mm feed : ℚ) : ℤ → List ℚ → List GLine
  | _, [] => []
  | direction, y :: rest =>
    let cut : GLine := if direction = 1 then .g1x length_mm feed else .g1x 0 feed
    match rest with
    | [] => [cut]
    | y_next :: _ =>
      let dy := y_next - y
      if dy ≤ tol then [cut]
      else
        let r_local := dy / 2
        let arc : GLine := if direction = 1 then .g3 length_mm y_next 0 r_local
                           else .g2 0 y_next 0 r_local
        cut :: arc :: passLines length_mm feed (-direction) rest

/-- The body of `for depth in depths:` (source lines 162–195): depth
comment, rapid to the pass start, rapid to the retract height, plunge,
the serpentine passes starting with `direction = +1`, then a retract and
a blank line. -/
def levelBlock (retract_z_mm plunge_mm_min feed_mm_min length_mm : ℚ)
    (ys : List ℚ) (depth : ℚ) : List GLine :=
  [.depthComment depth, .g0xy 0 0, .g0z retract_z_mm, .g1z depth plunge_mm_min]
    ++ passLines length_mm feed_mm_min 1 ys
    ++ [.g0z retract_z_mm, .blank]

/-- Everything `generate_surfacing_gcode` appends to `out` after
validation (source lines 145–205): header, initial safe move, optional
spindle-on (`M3` with the RPM rounded to an integer, only when
`spindle_speed_rpm > 0` — the source's `if spindle_speed_rpm and
spindle_speed_rpm > 0`), one block per depth, final retract, optional
`M5`, then `M30` and a trailing blank line. -/
def emitProgram (program_name work_offset : String)
    (retract_z_mm feed_mm_min plunge_mm_min length_mm spindle_speed_rpm : ℚ)
    (depths ys : List ℚ) : List GLine :=
  ([.progComment program_name, .g90, .g21, .g17, .workOffset work_offset, .g64, .blank,
    .g0z retract_z_mm]
    ++ (if 0 < spindle_speed_rpm then [GLine.m3 (round spindle_speed_rpm)] else [])
    ++ [.blank])
    ++ depths.flatMap (levelBlock retract_z_mm plunge_mm_min feed_mm_min length_mm ys)
    ++ ([.g0z retract_z_mm]
        ++ (if 0 < spindle_speed_rpm then [GLine.m5] else [])
        ++ [.m30, .blank])

/-- `generate_surfacing_gcode` from the source: normalize geometry and
rates, validate positivity in source order, plan depths and passes, and
emit.  Errors are the source's `raise ValueError(...)` sites; on an
error no program lines exist at all. -/
def generate_surfacing_gcode (width length final_depth max_stepdown stepover : ℚ)
    (unit : String) (feed_rate plunge_rate : ℚ) (rate_unit : String)
    (spindle_speed_rpm retract_z_mm : ℚ)
    (program_name work_offset : String) : Except GErr (List GLine) := do
  let width_mm ← geom_to_mm width unit
  let length_mm ← geom_to_mm length unit
  let final_depth_mm ← geom_to_mm final_depth unit
  let max_stepdown_mm ← geom_to_mm max_stepdown unit
  let stepover_mm ← geom_to_mm stepover unit
  if width_mm ≤ 0 ∨ length_mm ≤ 0 then .error .invalidWidthLength
  else if stepover_mm ≤ 0 then .error .invalidStepover
  else if retract_z_mm ≤ 0 then .error .invalidRetract
  else do
    let feed_mm_min ← rate_to_mm_min feed_rate rate_unit
    let plunge_mm_min ← rate_to_mm_min plunge_rate rate_unit
    if feed_mm_min ≤ 0 ∨ plunge_mm_min ≤ 0 then .error .invalidRates
    else do
      let depths ← depth_levels final_depth_mm max_stepdown_mm
      let ys := passYs width_mm stepover_mm
      .ok (emitProgram program_name work_offset retract_z_mm feed_mm_min plunge_mm_min
            length_mm spindle_speed_rpm depths ys)

/- `generate_from_params` is a literal field-by-field delegation to
`generate_surfacing_gcode` and is modelled only through it. -/

/-! ### Line classifiers used by the theorems -/

/-- True on the depth-block comment line `(Depth ... mm)`. -/
def GLine.isDepthCommentB : GLine → Bool
  | .depthComment _ => true
  | _ => false

/-- True on a sweep move `G1 X... F...`. -/
def GLine.isSweepB : GLine → Bool
  | .g1x _ _ => true
  | _ => false

/-- True on an arc move (`G2` or `G3`). -/
def GLine.isArcB : GLine → Bool
  | .g2 _ _ _ _ => true
  | .g3 _ _ _ _ => true
  | _ => false

/-- True on a clockwise arc: in RS-274, `G2` is the clockwise arc
command (G17 plane viewed from +Z) and `G3` the counter-clockwise one. -/
def GLine.isCWArcB : GLine → Bool
  | .g2 _ _ _ _ => true
  | _ => false

/-- True on the spindle-on command `M3 S...`. -/
def GLine.isM3B : GLine → Bool
  | .m3 _ => true
  | _ => false

/-- True on the spindle-stop command `M5`. -/
def GLine.isM5B : GLine → Bool
  | .m5 => true
  | _ => false

/-- True on the program-end command `M30`. -/
def GLine.isM30B : GLine → Bool
  | .m30 => true
  | _ => false

/-- True on an empty output line. -/
def GLine.isBlankB : GLine → Bool
  | .blank => true
  | _ => false

/-- The last non-blank line of a program: the source joins `out` with
newlines and appends a final `""`, so the terminal command is the last
non-blank entry. -/
def lastCmd (prog : List GLine) : Option GLine :=
  (prog.filter fun l => ¬ l.isBlankB).getLast?

/-- The sweep direction at pass index `i` when the serpentine started
with direction `d`: the source flips `direction *= -1` after every arc,
so the direction at pass `i` is `d` for even `i` and `-d` for odd `i`. -/
def dirAt (d : ℤ) (i : ℕ) : ℤ :=
  if i % 2 = 0 then d else -d

/-! ### Properties of the depth planner -/

lemma tol_pos : (0:ℚ) < tol := by norm_num [tol]

/-- One unfolding of the `while` loop of `_depth_levels`. -/
lemma depthLoop_unfold (target step : ℚ) (hstep : 0 < step) (z : ℚ) :
    depthLoop target step hstep z =
      if target < z then
        if z - step - target ≤ tol then [clampStep target z step]
        else (z - step) :: depthLoop target step hstep (z - step)
      else [] := by
  rw [depthLoop]

/-- The clamped next level never passes the target. -/
lemma le_clampStep (target z step : ℚ) : target ≤ clampStep target z step := by
  unfold clampStep
  split
  · exact le_refl _
  · linarith [not_lt.mp (by assumption : ¬ z - step < target)]

/-- The clamped next level is strictly below the current one. -/
lemma clampStep_lt (target z step : ℚ) (hstep : 0 < step) (h : target < z) :
    clampStep target z step < z := by
  unfold clampStep
  split
  · exact h
  · linarith

/-- The clamped next level drops by at most `step`. -/
lemma sub_step_le_clampStep (target z step : ℚ) :
    z - step ≤ clampStep target z step := by
  unfold clampStep
  split
  · linarith [(by assumption : z - step < target)]
  · exact le_refl _

/-- Every level produced by the loop is at least `target` and strictly
below the starting `z`. -/
lemma depthLoop_mem (target step : ℚ) (hstep : 0 < step) (z : ℚ) :
    ∀ d ∈ depthLoop target step hstep z, target ≤ d ∧ d < z := by
  induction z using depthLoop.induct target step hstep with
  | case1 z h1 h2 =>
    intro d hd
    rw [depthLoop_unfold, if_pos h1, if_pos h2] at hd
    simp only [List.mem_singleton] at hd
    exact hd ▸ ⟨le_clampStep _ _ _, clampStep_lt _ _ _ hstep h1⟩
  | case2 z h1 h2 ih =>
    intro d hd
    rw [depthLoop_unfold, if_pos h1, if_neg h2] at hd
    push_neg at h2
    rcases List.mem_cons.mp hd with rfl | hd
    · constructor
      · linarith [tol_pos]
      · linarith
    · obtain ⟨hd1, hd2⟩ := ih d hd
      exact ⟨hd1, by linarith⟩
  | case3 z h1 =>
    intro d hd
    rw [depthLoop_unfold, if_neg h1] at hd
    simp at hd

/-- The loop emits at least one level whenever `z` is above the target. -/
lemma depthLoop_ne_nil (target step : ℚ) (hstep : 0 < step) (z : ℚ)
    (h : target < z) : depthLoop target step hstep z ≠ [] := by
  rw [depthLoop_unfold, if_pos h]
  split <;> simp

/-- The first emitted level is the clamp of `z - step`. -/
lemma depthLoop_head (target step : ℚ) (hstep : 0 < step) (z : ℚ)
    (h : target < z) :
    (depthLoop target step hstep z).head? = some (clampStep target z step) := by
  rw [depthLoop_unfold, if_pos h]
  split
  · rfl
  · rename_i h2
    push_neg at h2
    have : ¬ z - step < target := by
      intro hc
      have := tol_pos
      linarith
    rw [List.head?_cons, clampStep, if_neg this]

/-- The last emitted level is within `tol` of the target. -/
lemma depthLoop_getLast (target step : ℚ) (hstep : 0 < step) (z : ℚ)
    (h : target < z) :
    ∃ last, (depthLoop target step hstep z).getLast? = some last ∧
      |last - target| ≤ tol := by
  induction z using depthLoop.induct target step hstep with
  | case1 z h1 h2 =>
    rw [depthLoop_unfold, if_pos h1, if_pos h2]
    refine ⟨clampStep target z step, by simp, ?_⟩
    unfold clampStep
    split
    · rw [sub_self, abs_zero]
      exact le_of_lt tol_pos
    · rename_i hnc
      push_neg at hnc
      rw [abs_of_nonneg (by linarith)]
      exact h2
  | case2 z h1 h2 ih =>
    rw [depthLoop_unfold, if_pos h1, if_neg h2]
    push_neg at h2
    have hcl : target < z - step := by
      have := tol_pos
      linarith
    obtain ⟨last, hl1, hl2⟩ := ih hcl
    refine ⟨last, ?_, hl2⟩
    rw [List.getLast?_cons, hl1]
    simp
  | case3 z h1 =>
    exact absurd h h1

/-- Successive levels strictly decrease. -/
lemma depthLoop_chain (target step : ℚ) (hstep : 0 < step) (z : ℚ) :
    List.Chain' (fun a b => b < a) (depthLoop target step hstep z) := by
  induction z using depthLoop.induct target step hstep with
  | case1 z h1 h2 =>
    rw [depthLoop_unfold, if_pos h1, if_pos h2]
    simp
  | case2 z h1 h2 ih =>
    rw [depthLoop_unfold, if_pos h1, if_neg h2]
    refine List.chain'_cons'.mpr ⟨?_, ih⟩
    intro y hy
    exact (depthLoop_mem target step hstep _ y (List.mem_of_mem_head? hy)).2
  | case3 z h1 =>
    rw [depthLoop_unfold, if_neg h1]
    simp

/-- The loop makes at most `⌈(z - target) / step⌉` iterations. -/
lemma depthLoop_length (target step : ℚ) (hstep : 0 < step) (z : ℚ) :
    (depthLoop target step hstep z).length ≤ (⌈(z - target) / step⌉).toNat := by
  induction z using depthLoop.induct target step hstep with
  | case1 z h1 h2 =>
    rw [depthLoop_unfold, if_pos h1, if_pos h2]
    have hpos : (0:ℚ) < (z - target) / step := div_pos (by linarith) hstep
    have := Int.ceil_pos.mpr hpos
    simp only [List.length_singleton]
    omega
  | case2 z h1 h2 ih =>
    rw [depthLoop_unfold, if_pos h1, if_neg h2]
    push_neg at h2
    have htol := tol_pos
    have hx : (1:ℚ) < (z - target) / step := by
      rw [lt_div_iff₀ hstep]
      linarith
    have hceil2 : (2:ℤ) ≤ ⌈(z - target) / step⌉ := by
      have hc1 : ((1:ℤ):ℚ) < (z - target) / step := by exact_mod_cast hx
      have hc2 := Int.lt_ceil.mpr hc1
      omega
    have heq : ⌈(z - step - target) / step⌉ = ⌈(z - target) / step⌉ - 1 := by
      have hdiv : (z - step - target) / step = (z - target) / step - 1 := by
        field_simp
        ring
      rw [hdiv, Int.ceil_sub_one]
    simp only [List.length_cons]
    omega
  | case3 z h1 =>
    rw [depthLoop_unfold, if_neg h1]
    simp

/-- If the exact `target` appears among the levels it is the last one:
once the target is reached the loop stops. -/
lemma depthLoop_target_last (target step : ℚ) (hstep : 0 < step) (z : ℚ)
    (h : target ∈ depthLoop target step hstep z) :
    (depthLoop target step hstep z).getLast? = some target := by
  induction z using depthLoop.induct target step hstep with
  | case1 z h1 h2 =>
    rw [depthLoop_unfold, if_pos h1, if_pos h2] at h ⊢
    simp only [List.mem_singleton] at h
    rw [← h]
    rfl
  | case2 z h1 h2 ih =>
    rw [depthLoop_unfold, if_pos h1, if_neg h2] at h ⊢
    push_neg at h2
    rcases List.mem_cons.mp h with heq | hmem
    · exfalso
      have := tol_pos
      rw [heq] at h2
      linarith
    · rw [List.getLast?_cons, ih hmem]
      have := List.ne_nil_of_mem hmem
      simp [this]
  | case3 z h1 =>
    rw [depthLoop_unfold, if_neg h1] at h
    simp at h

/-- C1: for all positive `final_depth_mm` and `max_stepdown_mm` the
depth planner succeeds with a nonempty sequence, no value is below
`-final_depth_mm`, and the last value equals `-final_depth_mm` within
absolute tolerance `1e-9`. -/
theorem depth_last_exact_and_no_overshoot (f s : ℚ) (hf : 0 < f) (hs : 0 < s) :
    ∃ ds, depth_levels f s = .ok ds ∧ ds ≠ [] ∧
      (∀ d ∈ ds, -f ≤ d) ∧
      ∃ last, ds.getLast? = some last ∧ |last - (-f)| ≤ tol := by
  have h1 : ¬ f ≤ 0 := not_le.mpr hf
  have h2 : ¬ s ≤ 0 := not_le.mpr hs
  have hz : -f < 0 := by linarith
  refine ⟨depthLoop (-f) s (not_le.mp h2) 0, ?_, ?_, ?_, ?_⟩
  · unfold depth_levels
    rw [if_neg h1, dif_neg h2]
  · exact depthLoop_ne_nil _ _ _ 0 hz
  · exact fun d hd => (depthLoop_mem _ _ _ 0 d hd).1
  · exact depthLoop_getLast _ _ _ 0 hz

/-- C1 witness at `final_depth_mm = 1`, `max_stepdown_mm = 2`. -/
theorem depth_last_exact_and_no_overshoot_witness :
    ∃ ds, depth_levels 1 2 = .ok ds ∧ ds ≠ [] ∧
      (∀ d ∈ ds, -1 ≤ d) ∧
      ∃ last, ds.getLast? = some last ∧ |last - (-1)| ≤ tol :=
  depth_last_exact_and_no_overshoot 1 2 (by norm_num) (by norm_num)

/-- C8: for all positive `final_depth_mm` and `max_stepdown_mm` the
depth-planning loop terminates with at most `⌈final/stepdown⌉` levels,
the sequence is strictly decreasing, its first element is at least
`-max_stepdown_mm`, and a level equal to the target is always the last
one — in particular, when `final_depth_mm` is an exact multiple of
`max_stepdown_mm`, no extra zero-length level follows the level that
already equals the target. -/
theorem depth_planner_terminates_bounded (f s : ℚ) (hf : 0 < f) (hs : 0 < s) :
    ∃ ds, depth_levels f s = .ok ds ∧
      ds.length ≤ (⌈f / s⌉).toNat ∧
      List.Chain' (fun a b => b < a) ds ∧
      (∀ d, ds.head? = some d → -s ≤ d) ∧
      ((-f) ∈ ds → ds.getLast? = some (-f)) := by
  have h1 : ¬ f ≤ 0 := not_le.mpr hf
  have h2 : ¬ s ≤ 0 := not_le.mpr hs
  refine ⟨depthLoop (-f) s (not_le.mp h2) 0, ?_, ?_, ?_, ?_, ?_⟩
  · unfold depth_levels
    rw [if_neg h1, dif_neg h2]
  · have hlen := depthLoop_length (-f) s (not_le.mp h2) 0
    have hz : (0:ℚ) - (-f) = f := by ring
    rwa [hz] at hlen
  · exact depthLoop_chain _ _ _ 0
  · intro d hd
    rw [depthLoop_head _ _ _ 0 (by linarith)] at hd
    have hle := sub_step_le_clampStep (-f) 0 s
    rw [zero_sub] at hle
    injection hd with hd
    linarith
  · exact depthLoop_target_last _ _ _ 0

/-- C8 witness at `final_depth_mm = 1`, `max_stepdown_mm = 2`. -/
theorem depth_planner_terminates_bounded_witness :
    ∃ ds, depth_levels 1 2 = .ok ds ∧
      ds.length ≤ (⌈(1:ℚ) / 2⌉).toNat ∧
      List.Chain' (fun a b => b < a) ds ∧
      (∀ d, ds.head? = some d → -2 ≤ d) ∧
      ((-1) ∈ ds → ds.getLast? = some (-1)) :=
  depth_planner_terminates_bounded 1 2 (by norm_num) (by norm_num)

/-! ### Properties of the pass planner -/

lemma passYs_eq (w s : ℚ) :
    passYs w s =
      (List.range ((⌈w / s⌉).toNat + 1)).map fun i : ℕ => min ((i:ℚ) * s) w := rfl

lemma passYs_length (w s : ℚ) :
    (passYs w s).length = (⌈w / s⌉).toNat + 1 := by
  rw [passYs_eq, List.length_map, List.length_range]

lemma passYs_getD (w s : ℚ) (i : ℕ) (h : i < (⌈w / s⌉).toNat + 1) :
    (passYs w s).getD i 0 = min ((i:ℚ) * s) w := by
  rw [passYs_eq, List.getD_eq_getElem?_getD, List.getElem?_map, List.getElem?_range h]
  rfl

lemma ceil_div_toNat_pos (w s : ℚ) (hw : 0 < w) (hs : 0 < s) :
    1 ≤ (⌈w / s⌉).toNat := by
  have := Int.ceil_pos.mpr (div_pos hw hs)
  omega

/-- The cast of `⌈w/s⌉.toNat` back to `ℚ` dominates `w / s`. -/
lemma ceil_div_toNat_cast_ge (w s : ℚ) (hw : 0 < w) (hs : 0 < s) :
    w / s ≤ (((⌈w / s⌉).toNat : ℕ) : ℚ) := by
  have hpos := Int.ceil_pos.mpr (div_pos hw hs)
  have hcast : (((⌈w / s⌉).toNat : ℕ) : ℤ) = ⌈w / s⌉ := Int.toNat_of_nonneg (le_of_lt hpos)
  have hle := Int.le_ceil (w / s)
  calc w / s ≤ ((⌈w / s⌉ : ℤ) : ℚ) := hle
    _ = (((⌈w / s⌉).toNat : ℕ) : ℚ) := by exact_mod_cast hcast.symm

/-- The cast of `⌈w/s⌉.toNat - 1` to `ℚ` is strictly below `w / s`. -/
lemma ceil_div_toNat_cast_lt (w s : ℚ) (hw : 0 < w) (hs : 0 < s) :
    ((((⌈w / s⌉).toNat - 1 : ℕ)) : ℚ) < w / s := by
  have hpos := Int.ceil_pos.mpr (div_pos hw hs)
  have hcast : (((⌈w / s⌉).toNat : ℕ) : ℤ) = ⌈w / s⌉ := Int.toNat_of_nonneg (le_of_lt hpos)
  have h1 : 1 ≤ (⌈w / s⌉).toNat := by omega
  have hc2 : ((((⌈w / s⌉).toNat - 1 : ℕ)) : ℚ) = (((⌈w / s⌉).toNat : ℕ) : ℚ) - 1 := by
    push_cast [h1]
    ring
  have hlt : ((⌈w / s⌉ : ℤ) : ℚ) - 1 < w / s := by
    have := Int.ceil_lt_add_one (w / s)
    linarith
  rw [hc2]
  have : (((⌈w / s⌉).toNat : ℕ) : ℚ) = ((⌈w / s⌉ : ℤ) : ℚ) := by exact_mod_cast hcast
  rw [this]
  exact hlt

/-- C2: the pass planner emits exactly `⌈w/s⌉ + 1` passes, the `i`-th
being `min (i * s) w`; the first is `0`, the last is exactly `w`, and
consecutive differences are at most `s + 1e-9`. -/
theorem pass_planner_spec (w s : ℚ) (hw : 0 < w) (hs : 0 < s) :
    (passYs w s).length = (⌈w / s⌉).toNat + 1 ∧
    (∀ i, i < (passYs w s).length → (passYs w s).getD i 0 = min ((i:ℚ) * s) w) ∧
    (passYs w s).head? = some 0 ∧
    (passYs w s).getLast? = some w ∧
    (∀ i, i + 1 < (passYs w s).length →
      (passYs w s).getD (i+1) 0 - (passYs w s).getD i 0 ≤ s + tol) := by
  refine ⟨passYs_length w s, ?_, ?_, ?_, ?_⟩
  · intro i hi
    rw [passYs_length] at hi
    exact passYs_getD w s i hi
  · rw [passYs_eq, List.head?_map, List.head?_range, if_neg (by omega : ¬ (⌈w / s⌉).toNat + 1 = 0)]
    simp only [Option.map_some', Nat.cast_zero, zero_mul]
    rw [min_eq_left (le_of_lt hw)]
  · rw [passYs_eq, List.getLast?_map, List.getLast?_range,
      if_neg (by omega : ¬ (⌈w / s⌉).toNat + 1 = 0)]
    simp only [Nat.add_sub_cancel, Option.map_some']
    have hws : w ≤ (((⌈w / s⌉).toNat : ℕ) : ℚ) * s := by
      rw [← div_le_iff₀ hs]
      exact ceil_div_toNat_cast_ge w s hw hs
    rw [min_eq_right hws]
  · intro i hi
    rw [passYs_length] at hi
    rw [passYs_getD w s (i+1) (by omega), passYs_getD w s i (by omega)]
    have h1 : ((i+1 : ℕ) : ℚ) * s = (i : ℚ) * s + s := by push_cast; ring
    have h2 : min ((i+1 : ℕ) * s : ℚ) w ≤ min ((i : ℚ) * s) w + s := by
      rw [h1]
      calc min ((i : ℚ) * s + s) w ≤ min ((i : ℚ) * s + s) (w + s) :=
            min_le_min (le_refl _) (by linarith)
        _ = min ((i : ℚ) * s) w + s := by rw [← min_add_add_right]
    have := tol_pos
    linarith [h2]

/-- C2 witness at `width_mm = 10`, `stepover_mm = 3`
(the spec's uneven-stepover example, passes `[0, 3, 6, 9, 10]`). -/
theorem pass_planner_spec_witness :
    (passYs 10 3).length = (⌈(10:ℚ) / 3⌉).toNat + 1 ∧
    (∀ i, i < (passYs 10 3).length → (passYs 10 3).getD i 0 = min ((i:ℚ) * 3) 10) ∧
    (passYs 10 3).head? = some 0 ∧
    (passYs 10 3).getLast? = some 10 ∧
    (∀ i, i + 1 < (passYs 10 3).length →
      (passYs 10 3).getD (i+1) 0 - (passYs 10 3).getD i 0 ≤ 3 + tol) :=
  pass_planner_spec 10 3 (by norm_num) (by norm_num)

/-! ### Properties of the serpentine emitter loop -/

lemma passLines_nil (L F : ℚ) (d : ℤ) : passLines L F d [] = [] := rfl

lemma passLines_single (L F : ℚ) (d : ℤ) (y : ℚ) :
    passLines L F d [y] = [if d = 1 then GLine.g1x L F else GLine.g1x 0 F] := rfl

lemma passLines_cons_cons (L F : ℚ) (d : ℤ) (y y2 : ℚ) (rest : List ℚ) :
    passLines L F d (y :: y2 :: rest) =
      if y2 - y ≤ tol then [if d = 1 then GLine.g1x L F else GLine.g1x 0 F]
      else (if d = 1 then GLine.g1x L F else GLine.g1x 0 F) ::
        (if d = 1 then GLine.g3 L y2 0 ((y2 - y) / 2)
          else GLine.g2 0 y2 0 ((y2 - y) / 2)) ::
        passLines L F (-d) (y2 :: rest) := rfl

lemma isSweepB_cut (L F : ℚ) (d : ℤ) :
    ((if d = 1 then GLine.g1x L F else GLine.g1x 0 F) : GLine).isSweepB = true := by
  split <;> rfl

lemma isArcB_arc (L y2 r : ℚ) (d : ℤ) :
    ((if d = 1 then GLine.g3 L y2 0 r else GLine.g2 0 y2 0 r) : GLine).isArcB = true := by
  split <;> rfl

/-- Every line the serpentine loop emits is a sweep or an arc. -/
lemma passLines_shape (L F : ℚ) (ys : List ℚ) :
    ∀ (d : ℤ) (l : GLine), l ∈ passLines L F d ys →
      l.isSweepB = true ∨ l.isArcB = true := by
  induction ys with
  | nil =>
    intro d l hl
    rw [passLines_nil] at hl
    simp at hl
  | cons y rest ih =>
    intro d l hl
    cases rest with
    | nil =>
      rw [passLines_single] at hl
      simp only [List.mem_singleton] at hl
      exact Or.inl (hl ▸ isSweepB_cut L F d)
    | cons y2 rest2 =>
      rw [passLines_cons_cons] at hl
      split at hl
      · simp only [List.mem_singleton] at hl
        exact Or.inl (hl ▸ isSweepB_cut L F d)
      · rcases List.mem_cons.mp hl with rfl | hl
        · exact Or.inl (isSweepB_cut L F d)
        · rcases List.mem_cons.mp hl with rfl | hl
          · exact Or.inr (isArcB_arc L y2 ((y2 - y) / 2) d)
          · exact ih (-d) l hl

/-- C4: when the distance to the next pass is `≤ 1e-9` the emitter emits
the current pass's sweep and then stops emitting anything further for
this depth level (the source's `break`). -/
theorem degenerate_interval_truncates (L F : ℚ) (d : ℤ) (y y2 : ℚ)
    (rest : List ℚ) (h : y2 - y ≤ tol) :
    passLines L F d (y :: y2 :: rest) =
      [if d = 1 then GLine.g1x L F else GLine.g1x 0 F] := by
  rw [passLines_cons_cons, if_pos h]

/-- C4 witness: a duplicated pass value truncates the whole remainder of
the level, even when later passes are far apart. -/
theorem degenerate_interval_truncates_witness :
    passLines 10 100 1 ((0:ℚ) :: 0 :: [5, 7]) =
      [if (1:ℤ) = 1 then GLine.g1x 10 100 else GLine.g1x 0 100] :=
  degenerate_interval_truncates 10 100 1 0 0 [5, 7] (by norm_num [tol])

lemma dirAt_zero (d : ℤ) : dirAt d 0 = d := by
  simp [dirAt]

lemma dirAt_neg_succ (d : ℤ) (i : ℕ) : dirAt (-d) i = dirAt d (i + 1) := by
  unfold dirAt
  rcases Nat.even_or_odd i with h | h
  · have h0 : i % 2 = 0 := Nat.even_iff.mp h
    have h1 : ¬ (i + 1) % 2 = 0 := by omega
    rw [if_pos h0, if_neg h1]
  · have h0 : ¬ i % 2 = 0 := by
      have := Nat.odd_iff.mp h
      omega
    have h1 : (i + 1) % 2 = 0 := by
      have := Nat.odd_iff.mp h
      omega
    rw [if_neg h0, if_pos h1, neg_neg]

/-- C3 (amended): whenever the next pass is more than `tol` away, the
line after the `i`-th sweep is a semicircular arc of radius `dy / 2`
landing exactly at the next pass's `Y`, emitted at the current `X` edge;
the arc is the counter-clockwise command `G3` (at `X = length`) when the
completed sweep ran in `+X`, and the clockwise command `G2` (at `X = 0`)
otherwise. -/
theorem arc_transitions (L F : ℚ) (d : ℤ) (ys : List ℚ) (i : ℕ)
    (hlen : i + 1 < ys.length)
    (hdy : ∀ j, j ≤ i → tol < ys.getD (j+1) 0 - ys.getD j 0) :
    (passLines L F d ys)[2*i]? =
      some (if dirAt d i = 1 then GLine.g1x L F else GLine.g1x 0 F) ∧
    (passLines L F d ys)[2*i+1]? =
      some (if dirAt d i = 1
        then GLine.g3 L (ys.getD (i+1) 0) 0 ((ys.getD (i+1) 0 - ys.getD i 0) / 2)
        else GLine.g2 0 (ys.getD (i+1) 0) 0 ((ys.getD (i+1) 0 - ys.getD i 0) / 2)) := by
  induction i generalizing d ys with
  | zero =>
    match ys, hlen with
    | y :: y2 :: rest, _ =>
      have h0 := hdy 0 (le_refl 0)
      simp only [List.getD_cons_succ, List.getD_cons_zero] at h0
      rw [passLines_cons_cons, if_neg (not_le.mpr h0)]
      simp only [List.getD_cons_succ, List.getD_cons_zero, dirAt_zero]
      refine ⟨?_, ?_⟩
      · rw [show 2*0 = 0 from rfl, List.getElem?_cons_zero]
      · rw [show 2*0+1 = 0+1 from rfl, List.getElem?_cons_succ, List.getElem?_cons_zero]
  | succ i ih =>
    match ys, hlen with
    | y :: y2 :: rest, hlen =>
      have h0 := hdy 0 (Nat.zero_le _)
      simp only [List.getD_cons_succ, List.getD_cons_zero] at h0
      rw [passLines_cons_cons, if_neg (not_le.mpr h0)]
      have hidx : 2 * (i + 1) = 2 * i + 1 + 1 := by ring
      have hidx2 : 2 * (i + 1) + 1 = 2 * i + 1 + 1 + 1 := by ring
      have hlen2 : i + 1 < (y2 :: rest).length := by
        simp only [List.length_cons] at hlen ⊢
        omega
      have hdy2 : ∀ j, j ≤ i →
          tol < (y2 :: rest).getD (j+1) 0 - (y2 :: rest).getD j 0 := by
        intro j hj
        have := hdy (j+1) (by omega)
        simpa only [List.getD_cons_succ] using this
      obtain ⟨ihc, iha⟩ := ih (-d) (y2 :: rest) hlen2 hdy2
      rw [dirAt_neg_succ] at ihc iha
      refine ⟨?_, ?_⟩
      · rw [hidx, List.getElem?_cons_succ, List.getElem?_cons_succ]
        simpa only [List.getD_cons_succ] using ihc
      · rw [hidx2, List.getElem?_cons_succ, List.getElem?_cons_succ]
        simpa only [List.getD_cons_succ] using iha

/-- C3 amended-claim witness on the pass list `[0, 1, 2]`: the second
pass sweeps `−X` and its transition arc is the clockwise `G2` at `X=0`. -/
theorem arc_transitions_witness :
    (passLines 10 100 1 ([0, 1, 2] : List ℚ))[2*1]? =
      some (if dirAt 1 1 = 1 then GLine.g1x 10 100 else GLine.g1x 0 100) ∧
    (passLines 10 100 1 ([0, 1, 2] : List ℚ))[2*1+1]? =
      some (if dirAt 1 1 = 1
        then GLine.g3 10 (([0, 1, 2] : List ℚ).getD 2 0) 0
          ((([0, 1, 2] : List ℚ).getD 2 0 - ([0, 1, 2] : List ℚ).getD 1 0) / 2)
        else GLine.g2 0 (([0, 1, 2] : List ℚ).getD 2 0) 0
          ((([0, 1, 2] : List ℚ).getD 2 0 - ([0, 1, 2] : List ℚ).getD 1 0) / 2)) :=
  arc_transitions 10 100 1 [0, 1, 2] 1 (by norm_num)
    (by
      intro j hj
      interval_cases j <;> norm_num [tol])

/-! ### Concrete evaluations of the depth planner and generator

`depthLoop` is defined by well-founded recursion, so concrete runs are
evaluated by rewriting with `depthLoop_unfold` once per loop iteration. -/

lemma depth_levels_mm_example : depth_levels 5 5 = .ok [-5] := by
  rw [depth_levels]
  rw [if_neg (by norm_num : ¬(5:ℚ) ≤ 0), dif_neg (by norm_num : ¬(5:ℚ) ≤ 0)]
  rw [depthLoop_unfold]
  norm_num [clampStep, tol]

lemma depth_levels_inch_example :
    depth_levels (127/50) (127/100) = .ok [-(127:ℚ)/100, -(127:ℚ)/50] := by
  rw [depth_levels]
  rw [if_neg (by norm_num : ¬(127:ℚ)/50 ≤ 0), dif_neg (by norm_num : ¬(127:ℚ)/100 ≤ 0)]
  rw [depthLoop_unfold]
  norm_num [clampStep, tol]
  rw [depthLoop_unfold]
  norm_num [clampStep, tol]

lemma ok_bind {ε α β : Type} (a : α) (f : α → Except ε β) :
    (Except.ok a : Except ε α) >>= f = f a := rfl

lemma geom_to_mm_inch (v : ℚ) : geom_to_mm v "inch" = .ok (v * mmPerInch) := by
  rw [geom_to_mm, if_neg (by decide : ¬("inch" = "mm")), if_pos (Or.inl rfl)]

lemma rate_to_mm_min_in (v : ℚ) : rate_to_mm_min v "in/min" = .ok (v * mmPerInch) := by
  rw [rate_to_mm_min, if_neg (by decide : ¬("in/min" = "mm/min")), if_pos (Or.inl rfl)]

/-- The all-millimetre example program reduced to its emitted line list. -/
lemma gen_mm_example :
    generate_surfacing_gcode 10 10 5 5 5 "mm" 100 50 "mm/min" 0 5 "p" "G54" =
      .ok (emitProgram "p" "G54" 5 100 50 10 0 [-5] (passYs 10 5)) := by
  norm_num [generate_surfacing_gcode, geom_to_mm, rate_to_mm_min, ok_bind,
    depth_levels_mm_example]

/-- The spec's end-to-end inch example reduced to its emitted line list. -/
lemma gen_inch_example :
    generate_surfacing_gcode 10 10 (1/10) (1/20) 2 "inch" 80 15 "in/min" 12000 5
        "surfacing" "G54" =
      .ok (emitProgram "surfacing" "G54" 5 2032 381 254 12000
        [-(127:ℚ)/100, -(127:ℚ)/50] (passYs 254 (254/5))) := by
  norm_num [generate_surfacing_gcode, geom_to_mm_inch, rate_to_mm_min_in, ok_bind,
    mmPerInch, depth_levels_inch_example]

lemma passYs_mm_eval : passYs 10 5 = [0, 5, 10] := by
  have h : (⌈(10:ℚ)/5⌉).toNat = 2 := by
    rw [show ⌈(10:ℚ)/5⌉ = (2:ℤ) from by norm_num]
    decide
  rw [passYs_eq, h]
  norm_num [List.range_succ]

lemma passYs_inch_eval :
    passYs 254 (254/5) = [0, 254/5, 508/5, 762/5, 1016/5, 254] := by
  have h : (⌈(254:ℚ)/(254/5)⌉).toNat = 5 := by
    rw [show ⌈(254:ℚ)/(254/5)⌉ = (5:ℤ) from by norm_num]
    decide
  rw [passYs_eq, h]
  norm_num [List.range_succ]

/-- The all-millimetre example program, line by line. -/
lemma prog_mm_eval :
    emitProgram "p" "G54" 5 100 50 10 0 [-5] (passYs 10 5) =
      [.progComment "p", .g90, .g21, .g17, .workOffset "G54", .g64, .blank,
       .g0z 5, .blank,
       .depthComment (-5), .g0xy 0 0, .g0z 5, .g1z (-5) 50,
       .g1x 10 100, .g3 10 5 0 (5/2),
       .g1x 0 100, .g2 0 10 0 (5/2),
       .g1x 10 100,
       .g0z 5, .blank,
       .g0z 5, .m30, .blank] := by
  rw [passYs_mm_eval]
  norm_num [emitProgram, levelBlock, passLines_cons_cons, passLines_single, tol]

/-- The spec's end-to-end inch example program, line by line. -/
lemma prog_inch_eval :
    emitProgram "surfacing" "G54" 5 2032 381 254 12000
        [-(127:ℚ)/100, -(127:ℚ)/50] (passYs 254 (254/5)) =
      [.progComment "surfacing", .g90, .g21, .g17, .workOffset "G54", .g64, .blank,
       .g0z 5, .m3 12000, .blank,
       .depthComment (-(127:ℚ)/100), .g0xy 0 0, .g0z 5, .g1z (-(127:ℚ)/100) 381,
       .g1x 254 2032, .g3 254 (254/5) 0 (127/5),
       .g1x 0 2032, .g2 0 (508/5) 0 (127/5),
       .g1x 254 2032, .g3 254 (762/5) 0 (127/5),
       .g1x 0 2032, .g2 0 (1016/5) 0 (127/5),
       .g1x 254 2032, .g3 254 254 0 (127/5),
       .g1x 0 2032,
       .g0z 5, .blank,
       .depthComment (-(127:ℚ)/50), .g0xy 0 0, .g0z 5, .g1z (-(127:ℚ)/50) 381,
       .g1x 254 2032, .g3 254 (254/5) 0 (127/5),
       .g1x 0 2032, .g2 0 (508/5) 0 (127/5),
       .g1x 254 2032, .g3 254 (762/5) 0 (127/5),
       .g1x 0 2032, .g2 0 (1016/5) 0 (127/5),
       .g1x 254 2032, .g3 254 254 0 (127/5),
       .g1x 0 2032,
       .g0z 5, .blank,
       .g0z 5, .m5, .m30, .blank] := by
  rw [passYs_inch_eval]
  norm_num [emitProgram, levelBlock, passLines_cons_cons, passLines_single, tol]

lemma error_bind {ε α β : Type} (e : ε) (f : α → Except ε β) :
    (Except.error e : Except ε α) >>= f = .error e := rfl

/-- A successful `generate_surfacing_gcode` run is exactly an
`emitProgram` emission: all validation happened before any line was
produced. -/
lemma generate_ok_inv {w l fd ms so : ℚ} {unit : String} {fr pr : ℚ}
    {ru : String} {rpm rz : ℚ} {pn wo : String} {prog : List GLine}
    (h : generate_surfacing_gcode w l fd ms so unit fr pr ru rpm rz pn wo = .ok prog) :
    ∃ (fe pl L : ℚ) (ds ys : List ℚ),
      prog = emitProgram pn wo rz fe pl L rpm ds ys := by
  unfold generate_surfacing_gcode at h
  cases h1 : geom_to_mm w unit with
  | error e => rw [h1, error_bind] at h; exact absurd h (by simp)
  | ok wmm =>
  rw [h1, ok_bind] at h
  cases h2 : geom_to_mm l unit with
  | error e => rw [h2, error_bind] at h; exact absurd h (by simp)
  | ok lmm =>
  rw [h2, ok_bind] at h
  cases h3 : geom_to_mm fd unit with
  | error e => rw [h3, error_bind] at h; exact absurd h (by simp)
  | ok fdmm =>
  rw [h3, ok_bind] at h
  cases h4 : geom_to_mm ms unit with
  | error e => rw [h4, error_bind] at h; exact absurd h (by simp)
  | ok msmm =>
  rw [h4, ok_bind] at h
  cases h5 : geom_to_mm so unit with
  | error e => rw [h5, error_bind] at h; exact absurd h (by simp)
  | ok somm =>
  rw [h5, ok_bind] at h
  by_cases hwl : wmm ≤ 0 ∨ lmm ≤ 0
  · rw [if_pos hwl] at h; exact absurd h (by simp)
  rw [if_neg hwl] at h
  by_cases hso : somm ≤ 0
  · rw [if_pos hso] at h; exact absurd h (by simp)
  rw [if_neg hso] at h
  by_cases hrz : rz ≤ 0
  · rw [if_pos hrz] at h; exact absurd h (by simp)
  rw [if_neg hrz] at h
  cases h6 : rate_to_mm_min fr ru with
  | error e => rw [h6, error_bind] at h; exact absurd h (by simp)
  | ok femm =>
  rw [h6, ok_bind] at h
  cases h7 : rate_to_mm_min pr ru with
  | error e => rw [h7, error_bind] at h; exact absurd h (by simp)
  | ok plmm =>
  rw [h7, ok_bind] at h
  by_cases hfp : femm ≤ 0 ∨ plmm ≤ 0
  · rw [if_pos hfp] at h; exact absurd h (by simp)
  rw [if_neg hfp] at h
  cases h8 : depth_levels fdmm msmm with
  | error e => rw [h8, error_bind] at h; exact absurd h (by simp)
  | ok ds =>
  rw [h8, ok_bind] at h
  refine ⟨femm, plmm, lmm, ds, passYs wmm somm, ?_⟩
  exact (Except.ok.injEq _ _).mp h.symm

/-- C3 counterexample: in a concretely generated program the sweep at
line 13 runs in `+X` and the arc joining it to the next pass at line 14
is `G3`, which is not the clockwise arc command — the claim that the arc
"winds clockwise when the completed sweep was in +X" is false. -/
theorem arc_winding_counterexample :
    (generate_surfacing_gcode 10 10 5 5 5 "mm" 100 50 "mm/min" 0 5 "p" "G54").map
      (fun p => (p[13]?, p[14]?)) =
      .ok (some (GLine.g1x 10 100), some (GLine.g3 10 5 0 (5/2))) ∧
    GLine.isCWArcB (GLine.g3 10 5 0 (5/2)) = false := by
  constructor
  · rw [gen_mm_example, prog_mm_eval]
    rfl
  · rfl

/-- A predicate that rejects sweep and arc lines counts nothing inside
the serpentine loop's output. -/
lemma countP_passLines_eq_zero (L F : ℚ) (d : ℤ) (ys : List ℚ) (p : GLine → Bool)
    (hp : ∀ a : GLine, a.isSweepB = true ∨ a.isArcB = true → p a = false) :
    (passLines L F d ys).countP p = 0 := by
  rw [List.countP_eq_zero]
  intro a ha
  rw [hp a (passLines_shape L F ys d a ha)]
  simp

lemma countP_flatMap_eq_zero {α : Type} (f : α → List GLine) (p : GLine → Bool)
    (l : List α) (h : ∀ a, (f a).countP p = 0) :
    (l.flatMap f).countP p = 0 := by
  induction l with
  | nil => rfl
  | cons a l ih =>
    rw [List.flatMap_cons, List.countP_append, h a, ih]

/-- No spindle-on line is ever emitted inside a depth block. -/
lemma levelBlock_countP_m3 (r pl fe L : ℚ) (ys : List ℚ) (dep : ℚ) :
    (levelBlock r pl fe L ys dep).countP GLine.isM3B = 0 := by
  simp only [levelBlock, List.countP_append]
  rw [countP_passLines_eq_zero _ _ _ _ _ ?_]
  · rfl
  · intro a h
    rcases h with h | h <;> cases a <;> simp_all [GLine.isSweepB, GLine.isArcB, GLine.isM3B]

/-- No spindle-stop line is ever emitted inside a depth block. -/
lemma levelBlock_countP_m5 (r pl fe L : ℚ) (ys : List ℚ) (dep : ℚ) :
    (levelBlock r pl fe L ys dep).countP GLine.isM5B = 0 := by
  simp only [levelBlock, List.countP_append]
  rw [countP_passLines_eq_zero _ _ _ _ _ ?_]
  · rfl
  · intro a h
    rcases h with h | h <;> cases a <;> simp_all [GLine.isSweepB, GLine.isArcB, GLine.isM5B]

/-- No program-end line is ever emitted inside a depth block. -/
lemma levelBlock_countP_m30 (r pl fe L : ℚ) (ys : List ℚ) (dep : ℚ) :
    (levelBlock r pl fe L ys dep).countP GLine.isM30B = 0 := by
  simp only [levelBlock, List.countP_append]
  rw [countP_passLines_eq_zero _ _ _ _ _ ?_]
  · rfl
  · intro a h
    rcases h with h | h <;> cases a <;> simp_all [GLine.isSweepB, GLine.isArcB, GLine.isM30B]

/-- C9: when `spindle_speed_rpm > 0` the program carries exactly one
spindle-on line `M3` with the rounded RPM right after the initial rapid
move to the retract height (lines 7 and 8 of the program), and exactly
one spindle-stop `M5` immediately before the terminal `M30`; when
`spindle_speed_rpm ≤ 0` there is no `M3` and no `M5` at all, and the
program still ends with `M30` before the trailing blank line. -/
theorem spindle_control (w l fd ms so : ℚ) (unit : String) (fr pr : ℚ)
    (ru : String) (rpm rz : ℚ) (pn wo : String) (prog : List GLine)
    (h : generate_surfacing_gcode w l fd ms so unit fr pr ru rpm rz pn wo = .ok prog) :
    (0 < rpm →
      prog[7]? = some (.g0z rz) ∧
      prog[8]? = some (.m3 (round rpm)) ∧
      prog.countP GLine.isM3B = 1 ∧
      prog.countP GLine.isM5B = 1 ∧
      prog.reverse[1]? = some .m30 ∧
      prog.reverse[2]? = some .m5) ∧
    (rpm ≤ 0 →
      prog.countP GLine.isM3B = 0 ∧
      prog.countP GLine.isM5B = 0 ∧
      prog.countP GLine.isM30B = 1 ∧
      prog.reverse[1]? = some .m30) := by
  obtain ⟨fe, pl, L, ds, ys, rfl⟩ := generate_ok_inv h
  constructor
  · intro hrpm
    simp only [emitProgram, if_pos hrpm]
    refine ⟨?_, ?_, ?_, ?_, ?_, ?_⟩
    · simp [List.getElem?_append, List.getElem?_cons_succ, List.getElem?_cons_zero]
    · simp [List.getElem?_append, List.getElem?_cons_succ, List.getElem?_cons_zero]
    · simp only [List.countP_append,
        countP_flatMap_eq_zero _ _ ds (levelBlock_countP_m3 rz pl fe L ys)]
      rfl
    · simp only [List.countP_append,
        countP_flatMap_eq_zero _ _ ds (levelBlock_countP_m5 rz pl fe L ys)]
      rfl
    · simp [List.reverse_append, List.getElem?_cons_succ, List.getElem?_cons_zero]
    · simp [List.reverse_append, List.getElem?_cons_succ, List.getElem?_cons_zero]
  · intro hrpm
    simp only [emitProgram, if_neg (not_lt.mpr hrpm)]
    refine ⟨?_, ?_, ?_, ?_⟩
    · simp only [List.countP_append,
        countP_flatMap_eq_zero _ _ ds (levelBlock_countP_m3 rz pl fe L ys)]
      rfl
    · simp only [List.countP_append,
        countP_flatMap_eq_zero _ _ ds (levelBlock_countP_m5 rz pl fe L ys)]
      rfl
    · simp only [List.countP_append,
        countP_flatMap_eq_zero _ _ ds (levelBlock_countP_m30 rz pl fe L ys)]
      rfl
    · simp [List.reverse_append, List.getElem?_cons_succ, List.getElem?_cons_zero]

/-- C5 counterexample: called on an empty depth sequence and an empty
pass sequence, the emission stage does not fail — there is no
`EmptyPlan` (or any other) check in the emitter, and a complete program
of header and footer lines, ending in `M30`, is emitted. -/
theorem empty_plan_counterexample :
    emitProgram "surfacing" "G54" 5 2032 381 254 12000 [] [] =
      [.progComment "surfacing", .g90, .g21, .g17, .workOffset "G54", .g64, .blank,
       .g0z 5, .m3 12000, .blank,
       .g0z 5, .m5, .m30, .blank] := by
  norm_num [emitProgram, round_eq]

/-- C5 amended: the emission stage contains no emptiness check and can
never fail — on an empty depth or pass sequence it still emits the full
header and footer (with the terminal `M30`); moreover, under the
positivity preconditions of the upstream planners the depth and pass
sequences are provably nonempty, so the empty case is indeed
unreachable. -/
theorem no_empty_plan (f s w so : ℚ) (hf : 0 < f) (hs : 0 < s)
    (_hw : 0 < w) (_hso : 0 < so) :
    (∀ ds, depth_levels f s = .ok ds → ds ≠ []) ∧
    passYs w so ≠ [] ∧
    (∀ (pn wo : String) (r fe pl L rpm : ℚ) (ds ys : List ℚ),
      GLine.m30 ∈ emitProgram pn wo r fe pl L rpm ds ys) := by
  refine ⟨?_, ?_, ?_⟩
  · intro ds hds
    unfold depth_levels at hds
    rw [if_neg (not_le.mpr hf), dif_neg (not_le.mpr hs)] at hds
    injection hds with hds
    rw [← hds]
    exact depthLoop_ne_nil _ _ _ 0 (by linarith)
  · intro hnil
    have hlen := passYs_length w so
    rw [hnil] at hlen
    simp at hlen
  · intro pn wo r fe pl L rpm ds ys
    simp [emitProgram]

/-- C5 amended-claim witness at `final_depth = 1`, `stepdown = 2`,
`width = 10`, `stepover = 3`. -/
theorem no_empty_plan_witness :
    (∀ ds, depth_levels 1 2 = .ok ds → ds ≠ []) ∧
    passYs 10 3 ≠ [] ∧
    (∀ (pn wo : String) (r fe pl L rpm : ℚ) (ds ys : List ℚ),
      GLine.m30 ∈ emitProgram pn wo r fe pl L rpm ds ys) :=
  no_empty_plan 1 2 10 3 (by norm_num) (by norm_num) (by norm_num) (by norm_num)

/-- One depth block of the inch example, line by line (independent of
the depth value `d` except for the comment and plunge lines). -/
lemma levelBlock_inch_eval (d : ℚ) :
    levelBlock 5 381 2032 254 (passYs 254 (254/5)) d =
      [.depthComment d, .g0xy 0 0, .g0z 5, .g1z d 381,
       .g1x 254 2032, .g3 254 (254/5) 0 (127/5),
       .g1x 0 2032, .g2 0 (508/5) 0 (127/5),
       .g1x 254 2032, .g3 254 (762/5) 0 (127/5),
       .g1x 0 2032, .g2 0 (1016/5) 0 (127/5),
       .g1x 254 2032, .g3 254 254 0 (127/5),
       .g1x 0 2032,
       .g0z 5, .blank] := by
  rw [passYs_inch_eval]
  norm_num [levelBlock, passLines_cons_cons, passLines_single, tol]

/-- C7: the end-to-end inch example (`width=10, length=10,
final_depth=0.1, max_stepdown=0.05, stepover=2` inches, rates
`80/15 in/min`, `12000` RPM, retract `5 mm`) yields a program with
exactly two depth blocks (at `-1.27` and `-2.54` mm, i.e. `-127/100` and
`-127/50`), 12 sweeps and 10 arcs in total (6 sweeps and 5 arcs per
depth block), exactly one `M3` and one `M5`, no depth block before the
`M3` or after the `M5`, and the terminal command `M30`. -/
theorem end_to_end_example :
    (generate_surfacing_gcode 10 10 (1/10) (1/20) 2 "inch" 80 15 "in/min" 12000 5
        "surfacing" "G54").map
      (fun p =>
        (p.countP GLine.isDepthCommentB, p.countP GLine.isSweepB,
         p.countP GLine.isArcB, p.countP GLine.isM3B, p.countP GLine.isM5B,
         p.countP GLine.isM30B,
         p.filter GLine.isDepthCommentB,
         (p.takeWhile fun l => ! GLine.isM3B l).countP GLine.isDepthCommentB,
         (p.dropWhile fun l => ! GLine.isM5B l).countP GLine.isDepthCommentB,
         lastCmd p)) =
      .ok (2, 12, 10, 1, 1, 1,
           [.depthComment (-(127:ℚ)/100), .depthComment (-(127:ℚ)/50)],
           0, 0, some .m30) ∧
    (∀ d : ℚ,
      (levelBlock 5 381 2032 254 (passYs 254 (254/5)) d).countP GLine.isSweepB = 6 ∧
      (levelBlock 5 381 2032 254 (passYs 254 (254/5)) d).countP GLine.isArcB = 5) := by
  constructor
  · rw [gen_inch_example, prog_inch_eval]
    rfl
  · intro d
    rw [levelBlock_inch_eval]
    constructor <;> rfl

/-- C9 witness on the end-to-end inch example (`rpm = 12000 > 0`). -/
theorem spindle_control_witness :
    (generate_surfacing_gcode 10 10 (1/10) (1/20) 2 "inch" 80 15 "in/min" 12000 5
        "surfacing" "G54").map (fun p => (p[8]?, p.countP GLine.isM5B)) =
      .ok (some (.m3 (round (12000:ℚ))), 1) := by
  have h := (spindle_control 10 10 (1/10) (1/20) 2 "inch" 80 15 "in/min" 12000 5
      "surfacing" "G54" _ gen_inch_example).1 (by norm_num)
  rw [gen_inch_example]
  simp only [Except.map]
  rw [h.2.1, h.2.2.2.1]

/-! ### Validation and error propagation -/

/-- A successful geometry conversion proves the unit was recognized. -/
lemma geom_to_mm_ok_unit {v x : ℚ} {unit : String}
    (h : geom_to_mm v unit = .ok x) :
    unit = "mm" ∨ unit = "inch" ∨ unit = "in" := by
  by_contra hno
  push_neg at hno
  rw [geom_to_mm, if_neg hno.1, if_neg (by tauto)] at h
  exact Except.noConfusion h

/-- A recognized geometry unit acts as multiplication by a single
positive scale factor (1 for `mm`, 25.4 for the inch aliases). -/
lemma geom_scale (unit : String)
    (h : unit = "mm" ∨ unit = "inch" ∨ unit = "in") :
    ∃ c : ℚ, 0 < c ∧ ∀ v, geom_to_mm v unit = .ok (c * v) := by
  rcases h with rfl | rfl | rfl
  · exact ⟨1, one_pos, fun v => by rw [geom_to_mm, if_pos rfl, one_mul]⟩
  · refine ⟨mmPerInch, by norm_num [mmPerInch], fun v => ?_⟩
    rw [geom_to_mm, if_neg (by decide), if_pos (Or.inl rfl), mul_comm]
  · refine ⟨mmPerInch, by norm_num [mmPerInch], fun v => ?_⟩
    rw [geom_to_mm, if_neg (by decide), if_pos (Or.inr rfl), mul_comm]

/-- `generate_surfacing_gcode` after the five geometry conversions, in
terms of the geometry scale factor. -/
lemma generate_unfold_geom (w l fd ms so : ℚ) (unit : String) (fr pr : ℚ)
    (ru : String) (rpm rz : ℚ) (pn wo : String) (c : ℚ)
    (hc : ∀ v, geom_to_mm v unit = .ok (c * v)) :
    generate_surfacing_gcode w l fd ms so unit fr pr ru rpm rz pn wo =
      (if c * w ≤ 0 ∨ c * l ≤ 0 then .error .invalidWidthLength
       else if c * so ≤ 0 then .error .invalidStepover
       else if rz ≤ 0 then .error .invalidRetract
       else
         rate_to_mm_min fr ru >>= fun fe =>
         rate_to_mm_min pr ru >>= fun pl =>
         if fe ≤ 0 ∨ pl ≤ 0 then .error .invalidRates
         else
           depth_levels (c * fd) (c * ms) >>= fun ds =>
           .ok (emitProgram pn wo rz fe pl (c * l) rpm ds
             (passYs (c * w) (c * so)))) := by
  unfold generate_surfacing_gcode
  rw [hc w, ok_bind, hc l, ok_bind, hc fd, ok_bind, hc ms, ok_bind, hc so, ok_bind]

/-- C6: every public operation validates before emitting.  An
unrecognized geometry or rate unit string fails with the corresponding
`Unsupported ... unit` error; a required quantity that is zero or
negative after normalization fails with the corresponding positivity
(`InvalidDimension`) error; each conjunct fires at the first violated
precondition in source order; and an error result carries no program
text at all. -/
theorem validation_fail_fast (w l fd ms so : ℚ) (unit : String) (fr pr : ℚ)
    (ru : String) (rpm rz : ℚ) (pn wo : String) :
    (¬(unit = "mm" ∨ unit = "inch" ∨ unit = "in") →
      generate_surfacing_gcode w l fd ms so unit fr pr ru rpm rz pn wo =
        .error (.unsupportedGeomUnit unit)) ∧
    (∀ wmm, geom_to_mm w unit = .ok wmm → wmm ≤ 0 →
      generate_surfacing_gcode w l fd ms so unit fr pr ru rpm rz pn wo =
        .error .invalidWidthLength) ∧
    (∀ lmm, geom_to_mm l unit = .ok lmm → lmm ≤ 0 →
      generate_surfacing_gcode w l fd ms so unit fr pr ru rpm rz pn wo =
        .error .invalidWidthLength) ∧
    (∀ wmm lmm somm, geom_to_mm w unit = .ok wmm → 0 < wmm →
      geom_to_mm l unit = .ok lmm → 0 < lmm →
      geom_to_mm so unit = .ok somm → somm ≤ 0 →
      generate_surfacing_gcode w l fd ms so unit fr pr ru rpm rz pn wo =
        .error .invalidStepover) ∧
    (∀ wmm lmm somm, geom_to_mm w unit = .ok wmm → 0 < wmm →
      geom_to_mm l unit = .ok lmm → 0 < lmm →
      geom_to_mm so unit = .ok somm → 0 < somm → rz ≤ 0 →
      generate_surfacing_gcode w l fd ms so unit fr pr ru rpm rz pn wo =
        .error .invalidRetract) ∧
    (∀ wmm lmm somm, geom_to_mm w unit = .ok wmm → 0 < wmm →
      geom_to_mm l unit = .ok lmm → 0 < lmm →
      geom_to_mm so unit = .ok somm → 0 < somm → 0 < rz →
      ¬(ru = "mm/min" ∨ ru = "in/min" ∨ ru = "inch/min") →
      generate_surfacing_gcode w l fd ms so unit fr pr ru rpm rz pn wo =
        .error (.unsupportedRateUnit ru)) ∧
    (∀ wmm lmm somm fe pl, geom_to_mm w unit = .ok wmm → 0 < wmm →
      geom_to_mm l unit = .ok lmm → 0 < lmm →
      geom_to_mm so unit = .ok somm → 0 < somm → 0 < rz →
      rate_to_mm_min fr ru = .ok fe → rate_to_mm_min pr ru = .ok pl →
      fe ≤ 0 ∨ pl ≤ 0 →
      generate_surfacing_gcode w l fd ms so unit fr pr ru rpm rz pn wo =
        .error .invalidRates) ∧
    (∀ wmm lmm somm fe pl fdmm, geom_to_mm w unit = .ok wmm → 0 < wmm →
      geom_to_mm l unit = .ok lmm → 0 < lmm →
      geom_to_mm so unit = .ok somm → 0 < somm → 0 < rz →
      rate_to_mm_min fr ru = .ok fe → 0 < fe →
      rate_to_mm_min pr ru = .ok pl → 0 < pl →
      geom_to_mm fd unit = .ok fdmm → fdmm ≤ 0 →
      generate_surfacing_gcode w l fd ms so unit fr pr ru rpm rz pn wo =
        .error .invalidFinalDepth) ∧
    (∀ wmm lmm somm fe pl fdmm msmm, geom_to_mm w unit = .ok wmm → 0 < wmm →
      geom_to_mm l unit = .ok lmm → 0 < lmm →
      geom_to_mm so unit = .ok somm → 0 < somm → 0 < rz →
      rate_to_mm_min fr ru = .ok fe → 0 < fe →
      rate_to_mm_min pr ru = .ok pl → 0 < pl →
      geom_to_mm fd unit = .ok fdmm → 0 < fdmm →
      geom_to_mm ms unit = .ok msmm → msmm ≤ 0 →
      generate_surfacing_gcode w l fd ms so unit fr pr ru rpm rz pn wo =
        .error .invalidMaxStepdown) ∧
    (∀ e, generate_surfacing_gcode w l fd ms so unit fr pr ru rpm rz pn wo =
        .error e →
      ¬ ∃ p, generate_surfacing_gcode w l fd ms so unit fr pr ru rpm rz pn wo =
        .ok p) := by
  refine ⟨?_, ?_, ?_, ?_, ?_, ?_, ?_, ?_, ?_, ?_⟩
  · intro hno
    push_neg at hno
    unfold generate_surfacing_gcode
    rw [geom_to_mm, if_neg hno.1, if_neg (by tauto), error_bind]
  · intro wmm hb hle
    obtain ⟨c, hcpos, hc⟩ := geom_scale unit (geom_to_mm_ok_unit hb)
    rw [hc w] at hb
    injection hb with hb
    rw [generate_unfold_geom w l fd ms so unit fr pr ru rpm rz pn wo c hc,
      if_pos (Or.inl (hb ▸ hle))]
  · intro lmm hb hle
    obtain ⟨c, hcpos, hc⟩ := geom_scale unit (geom_to_mm_ok_unit hb)
    rw [hc l] at hb
    injection hb with hb
    rw [generate_unfold_geom w l fd ms so unit fr pr ru rpm rz pn wo c hc,
      if_pos (Or.inr (hb ▸ hle))]
  · intro wmm lmm somm hbw hw hbl hl hbs hs
    obtain ⟨c, hcpos, hc⟩ := geom_scale unit (geom_to_mm_ok_unit hbw)
    rw [hc w] at hbw
    rw [hc l] at hbl
    rw [hc so] at hbs
    injection hbw with hbw
    injection hbl with hbl
    injection hbs with hbs
    rw [generate_unfold_geom w l fd ms so unit fr pr ru rpm rz pn wo c hc,
      if_neg (by push_neg; exact ⟨by rw [hbw]; exact hw, by rw [hbl]; exact hl⟩),
      if_pos (hbs ▸ hs)]
  · intro wmm lmm somm hbw hw hbl hl hbs hs hrz
    obtain ⟨c, hcpos, hc⟩ := geom_scale unit (geom_to_mm_ok_unit hbw)
    rw [hc w] at hbw
    rw [hc l] at hbl
    rw [hc so] at hbs
    injection hbw with hbw
    injection hbl with hbl
    injection hbs with hbs
    rw [generate_unfold_geom w l fd ms so unit fr pr ru rpm rz pn wo c hc,
      if_neg (by push_neg; exact ⟨by rw [hbw]; exact hw, by rw [hbl]; exact hl⟩),
      if_neg (not_le.mpr (hbs ▸ hs)), if_pos hrz]
  · intro wmm lmm somm hbw hw hbl hl hbs hs hrz hru
    push_neg at hru
    obtain ⟨c, hcpos, hc⟩ := geom_scale unit (geom_to_mm_ok_unit hbw)
    rw [hc w] at hbw
    rw [hc l] at hbl
    rw [hc so] at hbs
    injection hbw with hbw
    injection hbl with hbl
    injection hbs with hbs
    rw [generate_unfold_geom w l fd ms so unit fr pr ru rpm rz pn wo c hc,
      if_neg (by push_neg; exact ⟨by rw [hbw]; exact hw, by rw [hbl]; exact hl⟩),
      if_neg (not_le.mpr (hbs ▸ hs)), if_neg (not_le.mpr hrz),
      rate_to_mm_min, if_neg hru.1, if_neg (by tauto), error_bind]
  · intro wmm lmm somm fe pl hbw hw hbl hl hbs hs hrz hbf hbp hfp
    obtain ⟨c, hcpos, hc⟩ := geom_scale unit (geom_to_mm_ok_unit hbw)
    rw [hc w] at hbw
    rw [hc l] at hbl
    rw [hc so] at hbs
    injection hbw with hbw
    injection hbl with hbl
    injection hbs with hbs
    rw [generate_unfold_geom w l fd ms so unit fr pr ru rpm rz pn wo c hc,
      if_neg (by push_neg; exact ⟨by rw [hbw]; exact hw, by rw [hbl]; exact hl⟩),
      if_neg (not_le.mpr (hbs ▸ hs)), if_neg (not_le.mpr hrz),
      hbf, ok_bind, hbp, ok_bind, if_pos hfp]
  · intro wmm lmm somm fe pl fdmm hbw hw hbl hl hbs hs hrz hbf hfe hbp hpl hbd hd
    obtain ⟨c, hcpos, hc⟩ := geom_scale unit (geom_to_mm_ok_unit hbw)
    rw [hc w] at hbw
    rw [hc l] at hbl
    rw [hc so] at hbs
    rw [hc fd] at hbd
    injection hbw with hbw
    injection hbl with hbl
    injection hbs with hbs
    injection hbd with hbd
    rw [generate_unfold_geom w l fd ms so unit fr pr ru rpm rz pn wo c hc,
      if_neg (by push_neg; exact ⟨by rw [hbw]; exact hw, by rw [hbl]; exact hl⟩),
      if_neg (not_le.mpr (hbs ▸ hs)), if_neg (not_le.mpr hrz),
      hbf, ok_bind, hbp, ok_bind,
      if_neg (by push_neg; exact ⟨hfe, hpl⟩),
      depth_levels, if_pos (hbd ▸ hd), error_bind]
  · intro wmm lmm somm fe pl fdmm msmm hbw hw hbl hl hbs hs hrz hbf hfe hbp hpl
      hbd hd hbm hm
    obtain ⟨c, hcpos, hc⟩ := geom_scale unit (geom_to_mm_ok_unit hbw)
    rw [hc w] at hbw
    rw [hc l] at hbl
    rw [hc so] at hbs
    rw [hc fd] at hbd
    rw [hc ms] at hbm
    injection hbw with hbw
    injection hbl with hbl
    injection hbs with hbs
    injection hbd with hbd
    injection hbm with hbm
    rw [generate_unfold_geom w l fd ms so unit fr pr ru rpm rz pn wo c hc,
      if_neg (by push_neg; exact ⟨by rw [hbw]; exact hw, by rw [hbl]; exact hl⟩),
      if_neg (not_le.mpr (hbs ▸ hs)), if_neg (not_le.mpr hrz),
      hbf, ok_bind, hbp, ok_bind,
      if_neg (by push_neg; exact ⟨hfe, hpl⟩),
      depth_levels, if_neg (not_le.mpr (hbd ▸ hd)), dif_pos (hbm ▸ hm), error_bind]
  · intro e he hp
    obtain ⟨p, hp⟩ := hp
    rw [he] at hp
    exact Except.noConfusion hp

/-- C6 witness: an unrecognized geometry unit string fails with exactly
the unsupported-geometry-unit error. -/
theorem validation_fail_fast_witness :
    generate_surfacing_gcode 10 10 (1/10) (1/20) 2 "furlong" 80 15 "in/min"
        12000 5 "p" "G54" =
      .error (.unsupportedGeomUnit "furlong") :=
  (validation_fail_fast 10 10 (1/10) (1/20) 2 "furlong" 80 15 "in/min"
      12000 5 "p" "G54").1 (by decide)

/-! ### The truncation guard can only drop the final pass -/

lemma isSweepB_arc_false (L y2 r : ℚ) (d : ℤ) :
    ((if d = 1 then GLine.g3 L y2 0 r else GLine.g2 0 y2 0 r) : GLine).isSweepB
      = false := by
  split <;> rfl

/-- If every inter-pass distance except possibly the last exceeds `tol`,
the serpentine loop emits a sweep for all passes except possibly the
last one. -/
lemma passLines_countP_sweep_ge (L F : ℚ) (ys : List ℚ) :
    ∀ d : ℤ, (∀ j, j + 2 < ys.length → tol < ys.getD (j+1) 0 - ys.getD j 0) →
      ys.length - 1 ≤ (passLines L F d ys).countP GLine.isSweepB := by
  induction ys with
  | nil =>
    intro d _
    simp [passLines_nil]
  | cons y rest ih =>
    intro d h
    cases rest with
    | nil =>
      rw [passLines_single]
      simp
    | cons y2 rest2 =>
      rw [passLines_cons_cons]
      by_cases hdy : y2 - y ≤ tol
      · rw [if_pos hdy]
        cases rest2 with
        | nil =>
          rw [List.countP_cons, isSweepB_cut]
          simp
        | cons y3 rest3 =>
          exfalso
          have h0 := h 0 (by simp [List.length_cons])
          simp only [List.getD_cons_succ, List.getD_cons_zero] at h0
          linarith
      · rw [if_neg hdy]
        have ih2 := ih (-d) ?_
        · rw [List.countP_cons, List.countP_cons, isSweepB_cut, isSweepB_arc_false]
          simp only [List.length_cons] at ih2 ⊢
          simp only [if_true, if_false]
          omega
        · intro j hj
          have hjj := h (j+1) (by simp only [List.length_cons] at hj ⊢; omega)
          simpa only [List.getD_cons_succ] using hjj

/-- C10: for positive `width_mm` and `stepover_mm > 1e-9`, every
consecutive difference of the pass list except the last equals
`stepover_mm` exactly, and the last difference is strictly positive and
at most `stepover_mm`; consequently the `dy ≤ 1e-9` truncation guard can
fire only on the transition into the final pass, so the serpentine loop
emits at least `length - 1` sweeps — at most the final sweep (the one at
`Y = width_mm`) is ever dropped from a depth level. -/
theorem pass_plan_truncation_only_last (w s : ℚ) (hw : 0 < w) (hs0 : 0 < s)
    (hst : tol < s) :
    2 ≤ (passYs w s).length ∧
    (∀ i, i + 2 < (passYs w s).length →
      (passYs w s).getD (i+1) 0 - (passYs w s).getD i 0 = s) ∧
    0 < (passYs w s).getD ((⌈w / s⌉).toNat) 0 -
        (passYs w s).getD ((⌈w / s⌉).toNat - 1) 0 ∧
    (passYs w s).getD ((⌈w / s⌉).toNat) 0 -
        (passYs w s).getD ((⌈w / s⌉).toNat - 1) 0 ≤ s ∧
    (∀ (L F : ℚ) (d : ℤ),
      (passYs w s).length - 1 ≤
        (passLines L F d (passYs w s)).countP GLine.isSweepB) := by
  have hK1 : 1 ≤ (⌈w / s⌉).toNat := ceil_div_toNat_pos w s hw hs0
  have hcast_ge := ceil_div_toNat_cast_ge w s hw hs0
  have hcast_lt := ceil_div_toNat_cast_lt w s hw hs0
  have hKmul : w ≤ (((⌈w / s⌉).toNat : ℕ) : ℚ) * s := by
    rw [← div_le_iff₀ hs0]
    exact hcast_ge
  have hK1mul : ((((⌈w / s⌉).toNat - 1 : ℕ)) : ℚ) * s < w := by
    rw [← lt_div_iff₀ hs0]
    exact hcast_lt
  have hdiff : ∀ i, i + 2 < (passYs w s).length →
      (passYs w s).getD (i+1) 0 - (passYs w s).getD i 0 = s := by
    intro i hi
    rw [passYs_length] at hi
    rw [passYs_getD w s (i+1) (by omega), passYs_getD w s i (by omega)]
    have hle : ((i + 1 : ℕ) : ℚ) ≤ ((((⌈w / s⌉).toNat - 1 : ℕ)) : ℚ) :=
      Nat.cast_le.mpr (by omega)
    have hi1 : ((i + 1 : ℕ) : ℚ) * s < w := by
      calc ((i + 1 : ℕ) : ℚ) * s ≤ ((((⌈w / s⌉).toNat - 1 : ℕ)) : ℚ) * s :=
            mul_le_mul_of_nonneg_right hle (le_of_lt hs0)
        _ < w := hK1mul
    have hi0 : (i : ℚ) * s < w := by
      have : (i : ℚ) * s ≤ ((i + 1 : ℕ) : ℚ) * s := by
        push_cast
        nlinarith
      linarith
    rw [min_eq_left (by push_cast at hi1 ⊢; linarith),
      min_eq_left (le_of_lt hi0)]
    push_cast
    ring
  refine ⟨?_, hdiff, ?_, ?_, ?_⟩
  · rw [passYs_length]
    omega
  · rw [passYs_getD w s _ (by omega), passYs_getD w s _ (by omega),
      min_eq_right hKmul, min_eq_left (le_of_lt hK1mul)]
    linarith [hK1mul]
  · rw [passYs_getD w s _ (by omega), passYs_getD w s _ (by omega),
      min_eq_right hKmul, min_eq_left (le_of_lt hK1mul)]
    have hsum : ((((⌈w / s⌉).toNat - 1 : ℕ)) : ℚ) + 1 =
        (((⌈w / s⌉).toNat : ℕ) : ℚ) := by
      push_cast [hK1]
      ring
    nlinarith [hKmul, hsum]
  · intro L F d
    apply passLines_countP_sweep_ge
    intro j hj
    rw [hdiff j hj]
    exact hst

/-- C10 witness at `width_mm = 10`, `stepover_mm = 3`
(passes `[0, 3, 6, 9, 10]`, last difference `1`). -/
theorem pass_plan_truncation_only_last_witness :
    2 ≤ (passYs 10 3).length ∧
    (∀ i, i + 2 < (passYs 10 3).length →
      (passYs 10 3).getD (i+1) 0 - (passYs 10 3).getD i 0 = 3) ∧
    0 < (passYs 10 3).getD ((⌈(10:ℚ) / 3⌉).toNat) 0 -
        (passYs 10 3).getD ((⌈(10:ℚ) / 3⌉).toNat - 1) 0 ∧
    (passYs 10 3).getD ((⌈(10:ℚ) / 3⌉).toNat) 0 -
        (passYs 10 3).getD ((⌈(10:ℚ) / 3⌉).toNat - 1) 0 ≤ 3 ∧
    (∀ (L F : ℚ) (d : ℤ),
      (passYs 10 3).length - 1 ≤
        (passLines L F d (passYs 10 3)).countP GLine.isSweepB) :=
  pass_plan_truncation_only_last 10 3 (by norm_num) (by norm_num)
    (by norm_num [tol])

end Surfacing
